import Mathlib

/-
Verification development for the Session & Match Orchestrator of the
"score" repository: a server-authoritative, best-of-five, two-player
match engine with heuristic and external tension/morale scoring.

The definitions below are a shallow embedding of the TypeScript source
(series version): the game types, the pure board engine, the heuristic
intensity analyzer, the morale computation, the series-pressure
amplifier, the getIntensity pipeline, and the room-manager plus the
socket-handler state transitions. JS numbers are embedded as Rat
(all constants are exact decimals), JS Maps and Records as association
lists, Date.now() and randomly generated ids as explicit parameters,
and the asynchronous callbacks as explicit state-passing functions.
-/

namespace Score

/-- Player mark: X or O. -/
inductive Mark
  | X
  | O
deriving DecidableEq, Repr

/-- Source toggleTurn: X becomes O and O becomes X. -/
def toggleTurn : Mark → Mark
  | .X => .O
  | .O => .X

/-- Source opponent (inference/morale): same mapping as toggleTurn. -/
def opponent : Mark → Mark
  | .X => .O
  | .O => .X

/-- One board cell: none is an empty (null) cell. -/
abbrev Cell := Option Mark

/-- The 9-slot board, indices 0 to 8. -/
abbrev Board := List Cell

/-- Room lifecycle status. -/
inductive RoomStatus
  | waiting
  | active
  | roundOver
  | finished
deriving DecidableEq, Repr

/-- Winner of a single round: a mark or a draw. -/
inductive RoundWinner
  | markWin (m : Mark)
  | draw
deriving DecidableEq, Repr

/-- Per-mark morale pair, each bounded in [-1, 1]. -/
structure MoraleState where
  X : Rat
  O : Rat
deriving DecidableEq, Repr

/-- One recorded move: cell index, mark, timestamp, and the intensity
recorded for the position after this move. -/
structure MoveRec where
  cell : Nat
  mark : Mark
  timestamp : Nat
  intensity : Rat
deriving DecidableEq, Repr

/-- One finished round of the series. -/
structure RoundResult where
  round : Nat
  winner : RoundWinner
  moves : Nat
  duration : Nat
  finalIntensity : Rat
  finalMorale : MoraleState
deriving DecidableEq, Repr

/-- Best-of-N series state. -/
structure SeriesState where
  maxRounds : Nat
  currentRound : Nat
  roundResults : List RoundResult
  winsX : Nat
  winsO : Nat
  seriesOver : Bool
  seriesWinner : Option Mark
deriving DecidableEq, Repr

/-- Wins counter looked up by mark (source: series.wins[mark]). -/
def SeriesState.winsOf (s : SeriesState) : Mark → Nat
  | .X => s.winsX
  | .O => s.winsO

/-- One seat: fixed mark, nullable socket id, connected flag. -/
structure PlayerIdentity where
  mark : Mark
  socketId : Option String
  connected : Bool
deriving DecidableEq, Repr

/-- The aggregate room state (series version of the source GameRoom). -/
structure GameRoom where
  id : String
  players : List (String × PlayerIdentity)
  board : Board
  currentTurn : Mark
  status : RoomStatus
  winner : Option RoundWinner
  intensity : Rat
  morale : MoraleState
  moveHistory : List MoveRec
  createdAt : Nat
  roundStartedAt : Nat
  rematchRequests : List String
  series : SeriesState
deriving DecidableEq, Repr

/-- Source createEmptyBoard: nine null cells. -/
def createEmptyBoard : Board := List.replicate 9 none

/-- Source createInitialSeries: best of five starting at round one. -/
def createInitialSeries : SeriesState :=
  { maxRounds := 5
    currentRound := 1
    roundResults := []
    winsX := 0
    winsO := 0
    seriesOver := false
    seriesWinner := none }

/-- Source roundStartingTurn: X starts odd rounds, O starts even rounds. -/
def roundStartingTurn (round : Nat) : Mark :=
  if round % 2 = 1 then .X else .O

/-- The eight winning lines of the 3 by 3 grid. -/
def WIN_LINES : List (Nat × Nat × Nat) :=
  [(0, 1, 2), (3, 4, 5), (6, 7, 8),
   (0, 3, 6), (1, 4, 7), (2, 5, 8),
   (0, 4, 8), (2, 4, 6)]

/-- Reading board[i] for an in-range constant index (JS indexing on a
9-cell array); out-of-range reads behave like an empty cell here and
arise on no code path because indices come from WIN_LINES. -/
def cellAt (b : Board) (i : Nat) : Cell := b.getD i none

/-- The three cells of one winning line. -/
def lineCells (b : Board) (l : Nat × Nat × Nat) : List Cell :=
  [cellAt b l.1, cellAt b l.2.1, cellAt b l.2.2]

/-- A win found on the board: the mark and its completed line. -/
structure WinResult where
  winner : Mark
  winningCells : List Nat
deriving DecidableEq, Repr

/-- Result of a finished board: a win or a draw. -/
inductive GameResult
  | win (w : WinResult)
  | draw
deriving DecidableEq, Repr

/-- Source checkWin: first line whose three cells hold the same mark. -/
def checkWin (b : Board) : Option WinResult :=
  WIN_LINES.findSome? fun l =>
    match cellAt b l.1, cellAt b l.2.1, cellAt b l.2.2 with
    | some a, some b2, some c =>
        if a = b2 ∧ a = c then some ⟨a, [l.1, l.2.1, l.2.2]⟩ else none
    | _, _, _ => none

/-- Source checkDraw: every cell filled. -/
def checkDraw (b : Board) : Bool := b.all fun c => c ≠ none

/-- Source checkGameResult: a win, else a draw if full, else none. -/
def checkGameResult (b : Board) : Option GameResult :=
  match checkWin b with
  | some w => some (.win w)
  | none => if checkDraw b then some .draw else none

/-- Source isValidCell: an integer cell index in 0..8. The inbound JS
payload number is embedded as an Int (a non-integer payload is already
outside this type and is rejected by Number.isInteger in the source). -/
def isValidCell (cell : Int) : Bool := 0 ≤ cell && cell ≤ 8

/-- Reading board[cell] with a JS number index: out-of-range gives
undefined, which is distinct from null. -/
def jsCellAt (b : Board) (cell : Int) : Option Cell :=
  if 0 ≤ cell && cell.toNat < b.length then some (cellAt b cell.toNat) else none

/-- Source isCellEmpty: board[cell] === null. -/
def isCellEmpty (b : Board) (cell : Int) : Bool := jsCellAt b cell == some none

/-- Source placeMarker: copy of the board with the mark written at cell. -/
def placeMarker (b : Board) (cell : Nat) (mark : Mark) : Board :=
  b.set cell (some mark)

/-- Source countImminentWins: lines with two cells of the mark and one
empty cell. -/
def countImminentWins (b : Board) (mark : Mark) : Nat :=
  (WIN_LINES.filter fun l =>
    let cells := lineCells b l
    cells.count (some mark) == 2 && cells.count none == 1).length

/-- Source isDrawForced: every line already contains both marks. -/
def isDrawForced (b : Board) : Bool :=
  WIN_LINES.all fun l =>
    let cells := lineCells b l
    cells.any (· == some .X) && cells.any (· == some .O)

/-- Source analyzeIntensity: the synchronous heuristic tension score,
built from fill ratio, threats, forks, center control and forced-draw
deflation, clamped into [0, 1]. The currentTurn argument is accepted
and unused, as in the source. -/
def analyzeIntensity (board : Board) (currentTurn : Mark) : Rat :=
  let _ := currentTurn
  let filled : Nat := (board.filter fun c => c ≠ none).length
  let i0 : Rat := ((filled : Rat) / 9) * 0.15
  let xThreats := countImminentWins board .X
  let oThreats := countImminentWins board .O
  let i1 := if xThreats > 0 ∨ oThreats > 0 then i0 + 0.35 else i0
  let i2 := if xThreats ≥ 2 ∨ oThreats ≥ 2 then i1 + 0.30 else i1
  let i3 := if cellAt board 4 ≠ none then i2 + 0.10 else i2
  let i4 := if isDrawForced board then i3 - 0.10 else i3
  max 0 (min 1 i4)

/-- Source computeRoundWeight: 0 at round one, 0.20 at the last round. -/
def computeRoundWeight (s : SeriesState) : Rat :=
  (((s.currentRound : Rat) - 1) / ((s.maxRounds : Rat) - 1)) * 0.20

/-- Source computeClosenessWeight: up to 0.30 for a close score, 0 when
nothing has been won yet. -/
def computeClosenessWeight (s : SeriesState) : Rat :=
  let diff : Rat := |(s.winsX : Rat) - (s.winsO : Rat)|
  let totalWins := s.winsX + s.winsO
  if totalWins = 0 then 0 else max 0 (0.30 - diff * 0.10)

/-- Source computeEliminationWeight: match-point stakes. -/
def computeEliminationWeight (s : SeriesState) : Rat :=
  let xNeedsOne := s.winsX = 2
  let oNeedsOne := s.winsO = 2
  if xNeedsOne ∧ oNeedsOne then 0.30
  else if xNeedsOne ∨ oNeedsOne then 0.20
  else 0

/-- Source computeSeriesPressure: sum of the three weights, capped at
0.80. -/
def computeSeriesPressure (s : SeriesState) : Rat :=
  min 0.80 (computeRoundWeight s + computeClosenessWeight s + computeEliminationWeight s)

/-- Source clamp: Math.max(lo, Math.min(hi, value)). -/
def clamp (value lo hi : Rat) : Rat := max lo (min hi value)

/-- Source positionStrength: center and corner control, clamped to
[-0.10, 0.10]. -/
def positionStrength (board : Board) (mark : Mark) : Rat :=
  let opp := opponent mark
  let s0 : Rat :=
    if cellAt board 4 = some mark then 0.05
    else if cellAt board 4 = some opp then -0.05
    else 0
  let corners : List Nat := [0, 2, 6, 8]
  let myCorners := (corners.filter fun i => cellAt board i = some mark).length
  let oppCorners := (corners.filter fun i => cellAt board i = some opp).length
  let s1 := s0 + ((myCorners : Rat) - (oppCorners : Rat)) * 0.025
  clamp s1 (-0.10) 0.10

/-- Source computePlayerBoardMorale: threat advantage, turn agency,
defensive pressure, position strength and forced-draw deflation,
clamped to [-1, 1]. -/
def computePlayerBoardMorale (mark : Mark) (myThreats oppThreats : Nat)
    (board : Board) (currentTurn : Mark) : Rat :=
  let m0 : Rat := ((myThreats : Rat) - (oppThreats : Rat)) * 0.35
  let m1 := if currentTurn = mark then m0 + 0.10 else m0 - 0.10
  let m2 := if oppThreats > 0 ∧ myThreats = 0 then m1 - 0.30 else m1
  let m3 := m2 + positionStrength board mark
  let m4 := if isDrawForced board then m3 - 0.15 else m3
  clamp m4 (-1) 1

/-- Source computeBoardMorale: board-level morale for both marks. -/
def computeBoardMorale (board : Board) (currentTurn : Mark) : MoraleState :=
  let xThreats := countImminentWins board .X
  let oThreats := countImminentWins board .O
  { X := computePlayerBoardMorale .X xThreats oThreats board currentTurn
    O := computePlayerBoardMorale .O oThreats xThreats board currentTurn }

/-- Source computeMomentum: last-round momentum with a two-round streak
amplifier, clamped to [-0.25, 0.25]. -/
def computeMomentum (mark : Mark) (series : SeriesState)
    (lastRoundWinner : Option RoundWinner) : Rat :=
  match lastRoundWinner with
  | none => 0
  | some .draw => 0
  | some (.markWin w) =>
    let m0 : Rat := if w = mark then 0.15 else -0.15
    let results := series.roundResults
    let m1 :=
      if results.length ≥ 2 then
        let last2 := results.drop (results.length - 2)
        let streak := last2.all fun r => r.winner == .markWin mark
        let lossStreak := last2.all fun r =>
          !(r.winner == .markWin mark) && !(r.winner == .draw)
        let mA := if streak then m0 + 0.10 else m0
        if lossStreak then mA - 0.10 else mA
      else m0
    clamp m1 (-0.25) 0.25

/-- Source computeMatchPointMorale: values in -0.30, 0, 0.10, 0.30. -/
def computeMatchPointMorale (mark : Mark) (series : SeriesState) : Rat :=
  let myWins := series.winsOf mark
  let oppWins := series.winsOf (opponent mark)
  if myWins = 2 ∧ oppWins = 2 then 0.10
  else if myWins = 2 then 0.30
  else if oppWins = 2 then -0.30
  else 0

/-- Source computeComebackPotential: 0, 0.10 or 0.15 for a trailing
player. Arithmetic on JS numbers is embedded over Int because
roundsLeft can be stated negatively there. -/
def computeComebackPotential (mark : Mark) (series : SeriesState) : Rat :=
  let myWins : Int := series.winsOf mark
  let oppWins : Int := series.winsOf (opponent mark)
  let roundsLeft : Int := (series.maxRounds : Int) - (series.roundResults.length : Int)
  if myWins < oppWins ∧ myWins + roundsLeft ≥ 3 then 0.10
  else if myWins < oppWins ∧ 3 - myWins = roundsLeft then 0.15
  else 0

/-- Source computePlayerSeriesMorale: series lead, momentum, match
point, comeback potential, clamped to [-1, 1]. -/
def computePlayerSeriesMorale (mark : Mark) (series : SeriesState)
    (lastRoundWinner : Option RoundWinner) : Rat :=
  let myWins := series.winsOf mark
  let oppWins := series.winsOf (opponent mark)
  let m0 : Rat := ((myWins : Rat) - (oppWins : Rat)) * 0.20
  let m1 := m0 + computeMomentum mark series lastRoundWinner
  let m2 := m1 + computeMatchPointMorale mark series
  let m3 := m2 + computeComebackPotential mark series
  clamp m3 (-1) 1

/-- Source computeSeriesMorale: series-level morale for both marks. -/
def computeSeriesMorale (series : SeriesState)
    (lastRoundWinner : Option RoundWinner) : MoraleState :=
  { X := computePlayerSeriesMorale .X series lastRoundWinner
    O := computePlayerSeriesMorale .O series lastRoundWinner }

/-- Source computeMorale: 60 percent board morale blended with 40
percent series morale, clamped to [-1, 1]. -/
def computeMorale (board : Board) (currentTurn : Mark) (series : SeriesState)
    (lastRoundWinner : Option RoundWinner) : MoraleState :=
  let boardMorale := computeBoardMorale board currentTurn
  let seriesMorale := computeSeriesMorale series lastRoundWinner
  { X := clamp (boardMorale.X * 0.6 + seriesMorale.X * 0.4) (-1) 1
    O := clamp (boardMorale.O * 0.6 + seriesMorale.O * 0.4) (-1) 1 }

/-- Where a resolved intensity value came from. -/
inductive InferSource
  | gemini
  | heuristic
deriving DecidableEq, Repr

/-- The parsed JSON the external inference call resolved with. Each
field is some r exactly when the corresponding JSON field was present,
of number type, and not NaN. -/
structure GeminiJson where
  intensity : Option Rat
  morale_X : Option Rat
  morale_O : Option Rat
deriving DecidableEq, Repr

/-- The value getIntensity resolves with. -/
structure IntensityResult where
  value : Rat
  source : InferSource
  seriesPressure : Rat
  morale : MoraleState
deriving DecidableEq, Repr

/-- Source getIntensity (morale version): races the external call
against the timeout. The race outcome is the explicit first argument:
none embeds a timeout, network error or malformed response, and
some json a resolved call. A resolved call whose intensity field is
not a number is treated as a failure (the source throws and lands in
the same catch block), so it produces the same fallback result. On
success the value is the raw intensity clamped into [0, 1] with no
series-pressure amplification; on failure the value is the recomputed
heuristic amplified by the series pressure and capped at 1. -/
def getIntensity (outcome : Option GeminiJson) (board : Board)
    (currentTurn : Mark) (series : SeriesState)
    (lastRoundWinner : Option RoundWinner) : IntensityResult :=
  match outcome with
  | some json =>
    match json.intensity with
    | some raw =>
      let clamped := max 0 (min 1 raw)
      let pressure := computeSeriesPressure series
      let morale :=
        match json.morale_X, json.morale_O with
        | some mx, some mo =>
          { X := max (-1) (min 1 mx), O := max (-1) (min 1 mo) : MoraleState }
        | _, _ => computeMorale board currentTurn series lastRoundWinner
      { value := clamped, source := .gemini, seriesPressure := pressure, morale := morale }
    | none =>
      let heuristic := analyzeIntensity board currentTurn
      let pressure := computeSeriesPressure series
      let amplified := min 1 (heuristic * (1 + pressure))
      let morale := computeMorale board currentTurn series lastRoundWinner
      { value := amplified, source := .heuristic, seriesPressure := pressure, morale := morale }
  | none =>
    let heuristic := analyzeIntensity board currentTurn
    let pressure := computeSeriesPressure series
    let amplified := min 1 (heuristic * (1 + pressure))
    let morale := computeMorale board currentTurn series lastRoundWinner
    { value := amplified, source := .heuristic, seriesPressure := pressure, morale := morale }

/-- Stable machine-readable protocol error codes of the handler layer
(the full table of getErrorMessage). -/
inductive ErrCode
  | ROOM_NOT_FOUND
  | ROOM_FULL
  | GAME_NOT_ACTIVE
  | NOT_YOUR_TURN
  | INVALID_CELL
  | CELL_OCCUPIED
  | ALREADY_IN_ROOM
  | INVALID_TOKEN
  | RECONNECT_EXPIRED
  | SERIES_NOT_FINISHED
  | ROUND_TRANSITION
deriving DecidableEq, Repr

/-- Lookup in a JS Map or Record embedded as an association list. -/
def alistLookup {α : Type} (m : List (String × α)) (k : String) : Option α :=
  (m.find? fun p => p.1 == k).map Prod.snd

/-- Map.delete: remove the entry with the given key. -/
def alistErase {α : Type} (m : List (String × α)) (k : String) : List (String × α) :=
  m.filter fun p => !(p.1 == k)

/-- Map.set: bind the key to the value (replacing any previous entry). -/
def alistInsert {α : Type} (k : String) (v : α) (m : List (String × α)) : List (String × α) :=
  (k, v) :: alistErase m k

/-- The session-store global state: the room map, the socket reverse
index mapping socket id to (roomId, playerToken), and the set of
player tokens holding a pending disconnect timer. -/
structure ServerState where
  rooms : List (String × GameRoom)
  socketToRoom : List (String × (String × String))
  disconnectTimers : List String
deriving DecidableEq, Repr

/-- Source createRoom: fresh room seating the caller on X in status
waiting. Room code, token and Date.now() are external inputs of the
source (nanoid, randomBytes, clock) passed here as parameters. -/
def createRoom (st : ServerState) (roomId playerToken socketId : String)
    (now : Nat) : ServerState × GameRoom :=
  let room : GameRoom :=
    { id := roomId
      players := [(playerToken, { mark := .X, socketId := some socketId, connected := true })]
      board := createEmptyBoard
      currentTurn := .X
      status := .waiting
      winner := none
      intensity := 0
      morale := { X := 0, O := 0 }
      moveHistory := []
      createdAt := now
      roundStartedAt := now
      rematchRequests := []
      series := createInitialSeries }
  ({ st with
      rooms := alistInsert roomId room st.rooms
      socketToRoom := alistInsert socketId (roomId, playerToken) st.socketToRoom },
   room)

/-- Source joinRoom: seats the caller on O and flips status to active;
fails with ROOM_NOT_FOUND or ROOM_FULL. The new token is an external
input of the source passed as a parameter. -/
def joinRoom (st : ServerState) (roomId socketId playerToken : String) :
    Except ErrCode (ServerState × GameRoom) :=
  match alistLookup st.rooms roomId with
  | none => .error .ROOM_NOT_FOUND
  | some room =>
    if room.status ≠ .waiting then .error .ROOM_FULL
    else if room.players.length ≥ 2 then .error .ROOM_FULL
    else
      let room' := { room with
        players := room.players ++ [(playerToken, { mark := .O, socketId := some socketId, connected := true })]
        status := .active }
      .ok ({ st with
              rooms := alistInsert roomId room' st.rooms
              socketToRoom := alistInsert socketId (roomId, playerToken) st.socketToRoom },
           room')

/-- Source getPlayerMark: the mark of the seat owning the token. -/
def getPlayerMark (room : GameRoom) (playerToken : String) : Option Mark :=
  (alistLookup room.players playerToken).map (·.mark)

/-- Source disconnectPlayer: clears the seat connection and removes the
reverse-index entry; never deletes the room. -/
def disconnectPlayer (st : ServerState) (socketId : String) :
    Option (ServerState × GameRoom × Mark) :=
  match alistLookup st.socketToRoom socketId with
  | none => none
  | some (roomId, playerToken) =>
    match alistLookup st.rooms roomId with
    | none => none
    | some room =>
      match alistLookup room.players playerToken with
      | none => none
      | some player =>
        let player' := { player with socketId := none, connected := false }
        let room' := { room with players := alistInsert playerToken player' room.players }
        some ({ st with
                  rooms := alistInsert roomId room' st.rooms
                  socketToRoom := alistErase st.socketToRoom socketId },
              room', player.mark)

/-- Source reconnectPlayer: restores the seat connection and cancels
any pending disconnect timer for the token. There is no check of the
room status and no check of elapsed time. -/
def reconnectPlayer (st : ServerState) (roomId playerToken newSocketId : String) :
    Except ErrCode (ServerState × Mark) :=
  match alistLookup st.rooms roomId with
  | none => .error .ROOM_NOT_FOUND
  | some room =>
    match alistLookup room.players playerToken with
    | none => .error .INVALID_TOKEN
    | some player =>
      let timers := st.disconnectTimers.filter fun t => !(t == playerToken)
      let player' := { player with socketId := some newSocketId, connected := true }
      let room' := { room with players := alistInsert playerToken player' room.players }
      .ok ({ st with
              rooms := alistInsert roomId room' st.rooms
              socketToRoom := alistInsert newSocketId (roomId, playerToken) st.socketToRoom
              disconnectTimers := timers },
           player.mark)

/-- Source setDisconnectTimer: arms (or re-arms) the timer for the
token. The scheduled duration is wall clock and outside the embedding;
only the pending-timer entry is state. -/
def setDisconnectTimer (st : ServerState) (playerToken : String) : ServerState :=
  { st with disconnectTimers :=
      playerToken :: st.disconnectTimers.filter fun t => !(t == playerToken) }

/-- Events published through the gateway, with the payload fields the
claims are about. -/
inductive Event
  | moveMade (cell : Nat) (mark : Mark) (intensity : Rat) (moveNumber : Nat)
  | roundOverEv (round : Nat) (winner : RoundWinner) (seriesOver : Bool)
  | seriesOverEv (seriesWinner : Option Mark)
  | intensityUpdate (value : Rat) (source : InferSource) (moveNumber : Nat)
  | roundStartEv (round : Nat) (currentTurn : Mark)
deriving DecidableEq, Repr

/-- Fires the one-shot timeout for a token: if the timer is still
armed, its map entry is deleted first and then the registered callback
runs; a cancelled (disarmed) timer does not fire. -/
def expireDisconnectTimer (playerToken : String)
    (callback : ServerState → ServerState × List Event)
    (st : ServerState) : ServerState × List Event :=
  if playerToken ∈ st.disconnectTimers then
    callback { st with disconnectTimers :=
        st.disconnectTimers.filter fun t => !(t == playerToken) }
  else (st, [])

/-- Source forfeitRoom: if the room and seat exist, force the series
result to the opponent of the forfeited mark. Note that the source
performs no check of room.status. -/
def forfeitRoom (st : ServerState) (roomId forfeitedToken : String) :
    Option (ServerState × GameRoom) :=
  match alistLookup st.rooms roomId with
  | none => none
  | some room =>
    match alistLookup room.players forfeitedToken with
    | none => none
    | some forfeited =>
      let winnerMark := if forfeited.mark = .X then Mark.O else Mark.X
      let room' := { room with
        status := .finished
        winner := some (.markWin winnerMark)
        series := { room.series with seriesOver := true, seriesWinner := some winnerMark } }
      some ({ st with rooms := alistInsert roomId room' st.rooms }, room')

/-- Source advanceRound: next round with a cleared board, parity
starting mark, reset intensity and morale, status active. -/
def advanceRound (room : GameRoom) (now : Nat) : GameRoom :=
  let nextRound := room.series.currentRound + 1
  { room with
      series := { room.series with currentRound := nextRound }
      board := createEmptyBoard
      currentTurn := roundStartingTurn nextRound
      moveHistory := []
      intensity := 0
      morale := { X := 0, O := 0 }
      winner := none
      status := .active
      roundStartedAt := now }

/-- Source recordRoundResult: append the immutable round result,
credit the winner, set status round-over. -/
def recordRoundResult (room : GameRoom) (winner : RoundWinner)
    (finalIntensity : Rat) (now : Nat) : GameRoom :=
  let s := room.series
  let rr : RoundResult :=
    { round := s.currentRound
      winner := winner
      moves := room.moveHistory.length
      duration := now - room.roundStartedAt
      finalIntensity := finalIntensity
      finalMorale := room.morale }
  let s1 := { s with roundResults := s.roundResults ++ [rr] }
  let s2 :=
    match winner with
    | .markWin .X => { s1 with winsX := s1.winsX + 1 }
    | .markWin .O => { s1 with winsO := s1.winsO + 1 }
    | .draw => s1
  { room with series := s2, status := .roundOver, winner := some winner }

/-- Source checkSeriesOver: three wins clinch for either mark;
otherwise, once the round counter reaches maxRounds, the leader wins
and a tie leaves seriesWinner null. Returns the updated room and
whether the series is decided. -/
def checkSeriesOver (room : GameRoom) : GameRoom × Bool :=
  let s := room.series
  if s.winsX ≥ 3 then
    ({ room with series := { s with seriesOver := true, seriesWinner := some .X } }, true)
  else if s.winsO ≥ 3 then
    ({ room with series := { s with seriesOver := true, seriesWinner := some .O } }, true)
  else if s.currentRound ≥ s.maxRounds then
    let w : Option Mark :=
      if s.winsX > s.winsO then some .X
      else if s.winsO > s.winsX then some .O
      else none
    ({ room with series := { s with seriesOver := true, seriesWinner := w } }, true)
  else (room, false)

/-- Source resetSeries: full series reset back to round one with X to
move, used when both seats acknowledged a new series. -/
def resetSeries (room : GameRoom) (now : Nat) : GameRoom :=
  { room with
      series := createInitialSeries
      board := createEmptyBoard
      moveHistory := []
      intensity := 0
      morale := { X := 0, O := 0 }
      winner := none
      status := .active
      roundStartedAt := now
      currentTurn := .X
      rematchRequests := [] }

/-- Source requestRematch: record the acknowledgement; when both seats
have acknowledged, reset the series. -/
def requestRematch (room : GameRoom) (playerToken : String) (now : Nat) :
    GameRoom × Bool :=
  let acks :=
    if playerToken ∈ room.rematchRequests then room.rematchRequests
    else playerToken :: room.rematchRequests
  let room1 := { room with rematchRequests := acks }
  if room1.players.length = 2 ∧ room1.players.all fun p => p.1 ∈ acks then
    (resetSeries room1 now, true)
  else (room1, false)

/-- Source deleteRoom: drop the room, its player socket reverse-index
entries and any pending timers for its tokens. -/
def deleteRoom (st : ServerState) (roomId : String) : ServerState :=
  match alistLookup st.rooms roomId with
  | none => st
  | some room =>
    let sids := room.players.filterMap fun p => p.2.socketId
    let tokens := room.players.map Prod.fst
    { rooms := alistErase st.rooms roomId
      socketToRoom := st.socketToRoom.filter fun e => !(sids.contains e.1)
      disconnectTimers := st.disconnectTimers.filter fun t => !(tokens.contains t) }

/-- The sweep-pass deletion test of startCleanupInterval: every seat
disconnected, or status finished with the room older than ten minutes
counted from createdAt. -/
def sweepCondition (now : Nat) (room : GameRoom) : Bool :=
  (room.players.all fun p => !p.2.connected) ||
  (room.status == .finished && decide (now - room.createdAt > 10 * 60 * 1000))

/-- One pass of the Cleanup Sweeper: deleteRoom for every room meeting
sweepCondition. -/
def runCleanupSweep (st : ServerState) (now : Nat) : ServerState :=
  let condemned := st.rooms.filter fun p => sweepCondition now p.2
  let sids := condemned.flatMap fun p => p.2.players.filterMap fun q => q.2.socketId
  let tokens := condemned.flatMap fun p => p.2.players.map Prod.fst
  { rooms := st.rooms.filter fun p => !(sweepCondition now p.2)
    socketToRoom := st.socketToRoom.filter fun e => !(sids.contains e.1)
    disconnectTimers := st.disconnectTimers.filter fun t => !(tokens.contains t) }

/-- The round winner a terminal board result denotes. -/
def GameResult.toRoundWinner : GameResult → RoundWinner
  | .win w => .markWin w.winner
  | .draw => .draw

/-- The accepted-move outcome of the make-move handler: the mutated
room, the events broadcast synchronously, and the values captured for
the fire-and-forget inference dispatch (the 1-based move sequence
number and the 0-based index of the move record). -/
structure MoveOutcome where
  room : GameRoom
  events : List Event
  moveNumber : Nat
  moveIndex : Nat
deriving DecidableEq, Repr

/-- The make-move handler of the series socket layer, after the socket
has been resolved to (room, playerToken). Validation order of the
source: status first (round-over rejected with its own code), then
turn ownership, then cell range, then occupancy. An accepted move
places the marker, records the heuristic intensity, appends the move
record, and either records the round (plus the series decision) on a
terminal board or toggles the turn. -/
def makeMove (room : GameRoom) (playerToken : String) (cell : Int)
    (now : Nat) : Except ErrCode MoveOutcome :=
  if room.status ≠ .active then
    .error (if room.status = .roundOver then .ROUND_TRANSITION else .GAME_NOT_ACTIVE)
  else
    match getPlayerMark room playerToken with
    | none => .error .NOT_YOUR_TURN
    | some mark =>
      if mark ≠ room.currentTurn then .error .NOT_YOUR_TURN
      else if !isValidCell cell then .error .INVALID_CELL
      else if !isCellEmpty room.board cell then .error .CELL_OCCUPIED
      else
        let c := cell.toNat
        let board1 := placeMarker room.board c mark
        let moveNumber := room.moveHistory.length + 1
        let heuristicIntensity := analyzeIntensity board1 room.currentTurn
        let moveIndex := room.moveHistory.length
        let room1 := { room with
          board := board1
          intensity := heuristicIntensity
          moveHistory := room.moveHistory ++
            [{ cell := c, mark := mark, timestamp := now, intensity := heuristicIntensity }] }
        match checkGameResult board1 with
        | some result =>
          let winner : RoundWinner := result.toRoundWinner
          let room2 := recordRoundResult room1 winner room1.intensity now
          let res3 := checkSeriesOver room2
          let room3 := res3.1
          let seriesDecided := res3.2
          let evRound := Event.roundOverEv room3.series.currentRound winner room3.series.seriesOver
          if seriesDecided then
            let room4 := { room3 with status := .finished }
            .ok { room := room4
                  events := [evRound, Event.seriesOverEv room4.series.seriesWinner]
                  moveNumber := moveNumber
                  moveIndex := moveIndex }
          else
            .ok { room := room3
                  events := [evRound]
                  moveNumber := moveNumber
                  moveIndex := moveIndex }
        | none =>
          let room2 := { room1 with currentTurn := toggleTurn room1.currentTurn }
          .ok { room := room2
                events := [Event.moveMade c mark heuristicIntensity moveNumber]
                moveNumber := moveNumber
                moveIndex := moveIndex }

/-- In-place JS field assignment moveHistory[i].intensity = v: replace
the record at index i with a copy holding the new intensity. On the
only code path the index is in range because the guard already ensured
the log has at least moveNumber entries; the out-of-range branch
leaves the list unchanged. -/
def setMoveIntensity (l : List MoveRec) (i : Nat) (v : Rat) : List MoveRec :=
  match l.get? i with
  | some mv => l.set i { mv with intensity := v }
  | none => l

/-- The then-callback of the background getIntensity dispatch in the
make-move handler. The guard of the source compares the current length
of the move log against the move sequence number captured at dispatch:
when the log still has at least moveNumber entries the resolved value
overwrites the live room intensity and the intensity field of the move
record at moveIndex; otherwise nothing is mutated. The
intensity-update broadcast is emitted on both paths. -/
def applyIntensityResolution (room : GameRoom) (result : IntensityResult)
    (moveNumber moveIndex : Nat) : GameRoom × List Event :=
  let room' :=
    if room.moveHistory.length ≥ moveNumber then
      { room with
          intensity := result.value
          moveHistory := setMoveIntensity room.moveHistory moveIndex result.value }
    else room
  (room', [Event.intensityUpdate result.value result.source moveNumber])

/-- The disconnect-timer callback registered by the disconnect handler
(series version): forfeit the room to the opponent of the disconnected
mark and, when the opponent socket captured at disconnect time exists,
record the current round for the opponent and broadcast round-over and
series-over. disconnectedMark and opponentSocketId are the values the
source closure captured when the seat disconnected. -/
def forfeitTimerCallback (roomId disconnectedToken : String)
    (disconnectedMark : Mark) (opponentSocketId : Option String) (now : Nat)
    (st : ServerState) : ServerState × List Event :=
  match forfeitRoom st roomId disconnectedToken with
  | none => (st, [])
  | some (st1, room1) =>
    match opponentSocketId with
    | none => (st1, [])
    | some _ =>
      let winnerMark := if disconnectedMark = .X then Mark.O else Mark.X
      let room2 := recordRoundResult room1 (.markWin winnerMark) room1.intensity now
      let st2 := { st1 with rooms := alistInsert roomId room2 st1.rooms }
      (st2,
       [Event.roundOverEv room2.series.currentRound (.markWin winnerMark) true,
        Event.seriesOverEv (some winnerMark)])

/-! Concrete states used by witnesses and counterexamples. -/

def emptyServer : ServerState :=
  { rooms := [], socketToRoom := [], disconnectTimers := [] }

def ridA : String := "R1"

def tokA : String := "tA"

def tokB : String := "tB"

def sidA : String := "s1"

def sidB : String := "s2"

def sampleRoom : GameRoom := (createRoom emptyServer ridA tokA sidA 0).2

/-- The sample room after the second seat joined: both seats occupied,
status active. -/
def activeRoom : GameRoom :=
  { sampleRoom with
      players := sampleRoom.players ++
        [(tokB, { mark := .O, socketId := some sidB, connected := true })]
      status := .active }

/-- A server state holding the single active room. -/
def stActive : ServerState :=
  { rooms := [(ridA, activeRoom)], socketToRoom := [], disconnectTimers := [] }

/-- An active room six moves into the round with live tension 0.2:
the state seen when a resolution for move 4 arrives after moves 5 and
6 were placed. -/
def staleRoom : GameRoom :=
  { activeRoom with
      intensity := 0.2
      moveHistory :=
        [{ cell := 4, mark := .X, timestamp := 1, intensity := 0.1 },
         { cell := 0, mark := .O, timestamp := 2, intensity := 0.1 },
         { cell := 1, mark := .X, timestamp := 3, intensity := 0.1 },
         { cell := 7, mark := .O, timestamp := 4, intensity := 0.1 },
         { cell := 2, mark := .X, timestamp := 5, intensity := 0.1 },
         { cell := 5, mark := .O, timestamp := 6, intensity := 0.1 }] }

/-- The stale resolved result used against staleRoom. -/
def staleResult : IntensityResult :=
  { value := 0.9, source := .gemini, seriesPressure := 0, morale := { X := 0, O := 0 } }

/-- A room whose round is already over (O won the round) while the
disconnect timer of the X seat is still pending. -/
def roundOverRoom : GameRoom :=
  { activeRoom with
      status := .roundOver
      winner := some (.markWin .O)
      series :=
        { createInitialSeries with
            currentRound := 2
            winsO := 1
            roundResults :=
              [{ round := 1, winner := .markWin .O, moves := 6, duration := 20,
                 finalIntensity := 0.5, finalMorale := { X := 0, O := 0 } }] } }

/-- Server state for the late-expiry scenario: the round-over room with
an armed timer for the X seat. -/
def stRoundOver : ServerState :=
  { rooms := [(ridA, roundOverRoom)], socketToRoom := [], disconnectTimers := [tokA] }

/-- A room whose two seats disconnected at the very instant of the
sweep (so certainly within any grace window), status still active. -/
def bothDiscRoom : GameRoom :=
  { activeRoom with
      createdAt := 660001
      roundStartedAt := 660001
      players :=
        [(tokA, { mark := .X, socketId := none, connected := false }),
         (tokB, { mark := .O, socketId := none, connected := false })] }

def ridB : String := "R2"

/-- A finished room with one seat still connected, created more than
ten minutes before the sweep. -/
def finishedConnRoom : GameRoom :=
  { activeRoom with
      id := ridB
      status := .finished
      createdAt := 0
      roundStartedAt := 0 }

/-- Server state swept at now = 660001. -/
def stSweep : ServerState :=
  { rooms := [(ridA, bothDiscRoom), (ridB, finishedConnRoom)]
    socketToRoom := []
    disconnectTimers := [] }

/-- A finished room (a forfeit already decided the series) whose X seat
is disconnected: the reconnect-after-forfeit scenario. -/
def finishedRoom : GameRoom :=
  { activeRoom with
      status := .finished
      winner := some (.markWin .O)
      players :=
        [(tokA, { mark := .X, socketId := none, connected := false }),
         (tokB, { mark := .O, socketId := some sidB, connected := true })]
      series := { createInitialSeries with seriesOver := true, seriesWinner := some .O } }

def stFinished : ServerState :=
  { rooms := [(ridA, finishedRoom)], socketToRoom := [], disconnectTimers := [tokA] }

/-! Shared helper lemmas. -/

theorem clamp_le_hi (v lo hi : Rat) (h : lo ≤ hi) : clamp v lo hi ≤ hi :=
  max_le h (min_le_left _ _)

theorem lo_le_clamp (v lo hi : Rat) : lo ≤ clamp v lo hi :=
  le_max_left _ _

theorem analyzeIntensity_nonneg (b : Board) (t : Mark) : 0 ≤ analyzeIntensity b t := by
  unfold analyzeIntensity
  exact le_max_left _ _

theorem analyzeIntensity_le_one (b : Board) (t : Mark) : analyzeIntensity b t ≤ 1 := by
  unfold analyzeIntensity
  exact max_le (by norm_num) (min_le_left _ _)

theorem computeMorale_bounds (b : Board) (t : Mark) (s : SeriesState)
    (l : Option RoundWinner) :
    -1 ≤ (computeMorale b t s l).X ∧ (computeMorale b t s l).X ≤ 1 ∧
    -1 ≤ (computeMorale b t s l).O ∧ (computeMorale b t s l).O ≤ 1 := by
  unfold computeMorale
  exact ⟨lo_le_clamp _ _ _, clamp_le_hi _ _ _ (by norm_num),
         lo_le_clamp _ _ _, clamp_le_hi _ _ _ (by norm_num)⟩

theorem computeRoundWeight_ge (s : SeriesState) (hmax : s.maxRounds = 5) :
    -(0.05 : Rat) ≤ computeRoundWeight s := by
  unfold computeRoundWeight
  rw [hmax]
  have h0 : (0 : Rat) ≤ (s.currentRound : Rat) := Nat.cast_nonneg _
  have h5 : ((5 : Nat) : Rat) - 1 = 4 := by norm_num
  rw [h5]
  nlinarith

theorem computeClosenessWeight_nonneg (s : SeriesState) :
    0 ≤ computeClosenessWeight s := by
  simp only [computeClosenessWeight]
  split
  · exact le_refl 0
  · exact le_max_left _ _

theorem computeEliminationWeight_nonneg (s : SeriesState) :
    0 ≤ computeEliminationWeight s := by
  simp only [computeEliminationWeight]
  split_ifs <;> norm_num

theorem computeSeriesPressure_ge (s : SeriesState) (hmax : s.maxRounds = 5) :
    -(0.05 : Rat) ≤ computeSeriesPressure s := by
  unfold computeSeriesPressure
  refine le_min (by norm_num) ?_
  have h1 := computeRoundWeight_ge s hmax
  have h2 := computeClosenessWeight_nonneg s
  have h3 := computeEliminationWeight_nonneg s
  linarith

theorem getIntensity_value_bounds (o : Option GeminiJson) (b : Board) (t : Mark)
    (s : SeriesState) (l : Option RoundWinner) (hmax : s.maxRounds = 5) :
    0 ≤ (getIntensity o b t s l).value ∧ (getIntensity o b t s l).value ≤ 1 := by
  have hfall : 0 ≤ min 1 (analyzeIntensity b t * (1 + computeSeriesPressure s)) ∧
      min 1 (analyzeIntensity b t * (1 + computeSeriesPressure s)) ≤ 1 := by
    constructor
    · refine le_min (by norm_num) ?_
      have h1 := analyzeIntensity_nonneg b t
      have h2 := computeSeriesPressure_ge s hmax
      have h3 : (0 : Rat) ≤ 1 + computeSeriesPressure s := by linarith
      exact mul_nonneg h1 h3
    · exact min_le_left _ _
  cases o with
  | none => exact hfall
  | some json =>
    cases hj : json.intensity with
    | none =>
      simp only [getIntensity, hj]
      exact hfall
    | some raw =>
      simp only [getIntensity, hj]
      exact ⟨le_max_left _ _, max_le (by norm_num) (min_le_left _ _)⟩

theorem getIntensity_morale_bounds (o : Option GeminiJson) (b : Board) (t : Mark)
    (s : SeriesState) (l : Option RoundWinner) :
    -1 ≤ (getIntensity o b t s l).morale.X ∧ (getIntensity o b t s l).morale.X ≤ 1 ∧
    -1 ≤ (getIntensity o b t s l).morale.O ∧ (getIntensity o b t s l).morale.O ≤ 1 := by
  cases o with
  | none => exact computeMorale_bounds b t s l
  | some json =>
    cases hj : json.intensity with
    | none =>
      simp only [getIntensity, hj]
      exact computeMorale_bounds b t s l
    | some raw =>
      cases hx : json.morale_X with
      | none =>
        simp only [getIntensity, hj, hx]
        exact computeMorale_bounds b t s l
      | some mx =>
        cases ho : json.morale_O with
        | none =>
          simp only [getIntensity, hj, hx, ho]
          exact computeMorale_bounds b t s l
        | some mo =>
          simp only [getIntensity, hj, hx, ho]
          exact ⟨le_max_left _ _, max_le (by norm_num) (min_le_left _ _),
                 le_max_left _ _, max_le (by norm_num) (min_le_left _ _)⟩

theorem recordRoundResult_preserves (r : GameRoom) (w : RoundWinner)
    (fi : Rat) (now : Nat) :
    (recordRoundResult r w fi now).intensity = r.intensity ∧
    (recordRoundResult r w fi now).board = r.board ∧
    (recordRoundResult r w fi now).morale = r.morale ∧
    (recordRoundResult r w fi now).moveHistory = r.moveHistory := by
  unfold recordRoundResult
  cases w with
  | markWin m => cases m <;> exact ⟨rfl, rfl, rfl, rfl⟩
  | draw => exact ⟨rfl, rfl, rfl, rfl⟩

theorem recordRoundResult_board (r : GameRoom) (w : RoundWinner) (fi : Rat) (now : Nat) :
    (recordRoundResult r w fi now).board = r.board :=
  (recordRoundResult_preserves r w fi now).2.1

theorem recordRoundResult_intensity (r : GameRoom) (w : RoundWinner) (fi : Rat) (now : Nat) :
    (recordRoundResult r w fi now).intensity = r.intensity :=
  (recordRoundResult_preserves r w fi now).1

theorem recordRoundResult_morale (r : GameRoom) (w : RoundWinner) (fi : Rat) (now : Nat) :
    (recordRoundResult r w fi now).morale = r.morale :=
  (recordRoundResult_preserves r w fi now).2.2.1

theorem recordRoundResult_moveHistory (r : GameRoom) (w : RoundWinner) (fi : Rat) (now : Nat) :
    (recordRoundResult r w fi now).moveHistory = r.moveHistory :=
  (recordRoundResult_preserves r w fi now).2.2.2

theorem checkSeriesOver_preserves (r : GameRoom) :
    (checkSeriesOver r).1.intensity = r.intensity ∧
    (checkSeriesOver r).1.board = r.board ∧
    (checkSeriesOver r).1.morale = r.morale ∧
    (checkSeriesOver r).1.moveHistory = r.moveHistory := by
  unfold checkSeriesOver
  dsimp only
  split_ifs <;> exact ⟨rfl, rfl, rfl, rfl⟩

theorem checkSeriesOver_board (r : GameRoom) : (checkSeriesOver r).1.board = r.board :=
  (checkSeriesOver_preserves r).2.1

theorem checkSeriesOver_intensity (r : GameRoom) :
    (checkSeriesOver r).1.intensity = r.intensity :=
  (checkSeriesOver_preserves r).1

theorem checkSeriesOver_morale (r : GameRoom) :
    (checkSeriesOver r).1.morale = r.morale :=
  (checkSeriesOver_preserves r).2.2.1

theorem checkSeriesOver_moveHistory (r : GameRoom) :
    (checkSeriesOver r).1.moveHistory = r.moveHistory :=
  (checkSeriesOver_preserves r).2.2.2

theorem alistLookup_insert {α : Type} (m : List (String × α)) (k : String) (v : α) :
    alistLookup (alistInsert k v m) k = some v := by
  simp [alistLookup, alistInsert, List.find?]

theorem makeMove_ok_shape (room : GameRoom) (tok : String) (cell : Int) (now : Nat)
    (out : MoveOutcome) (h : makeMove room tok cell now = .ok out) :
    getPlayerMark room tok = some room.currentTurn ∧
    out.room.board = placeMarker room.board cell.toNat room.currentTurn ∧
    out.room.intensity =
      analyzeIntensity (placeMarker room.board cell.toNat room.currentTurn) room.currentTurn ∧
    out.room.morale = room.morale := by
  unfold makeMove at h
  split at h
  · simp at h
  · split at h
    next => simp at h
    next mark hmk =>
      split at h
      next => simp at h
      next hmt =>
        split at h
        next => simp at h
        next hvalid =>
          split at h
          next => simp at h
          next hempty =>
            have hmark : mark = room.currentTurn := not_not.mp hmt
            subst hmark
            refine ⟨hmk, ?_⟩
            dsimp only at h
            split at h
            next result heq =>
              split at h
              next hdec =>
                injection h with h2
                subst h2
                exact ⟨by simp [checkSeriesOver_board, recordRoundResult_board],
                       by simp [checkSeriesOver_intensity, recordRoundResult_intensity],
                       by simp [checkSeriesOver_morale, recordRoundResult_morale]⟩
              next hdec =>
                injection h with h2
                subst h2
                exact ⟨by simp [checkSeriesOver_board, recordRoundResult_board],
                       by simp [checkSeriesOver_intensity, recordRoundResult_intensity],
                       by simp [checkSeriesOver_morale, recordRoundResult_morale]⟩
            next heq =>
              injection h with h2
              subst h2
              exact ⟨rfl, rfl, rfl⟩

/-! Claim theorems. -/

/-- C4: for every round number r in [1, maxRounds], round r starts with
mark X exactly when r is odd; round advance derives the starting mark
from the parity of the incremented round number; a full series reset
returns to round 1 with X to move. -/
theorem C4_round_start_parity (r : Nat) (_h1 : 1 ≤ r) (_h2 : r ≤ 5) :
    (roundStartingTurn r = .X ↔ r % 2 = 1) ∧
    (∀ (room : GameRoom) (now : Nat),
        (advanceRound room now).series.currentRound = room.series.currentRound + 1 ∧
        (advanceRound room now).currentTurn =
          roundStartingTurn (room.series.currentRound + 1)) ∧
    (∀ (room : GameRoom) (now : Nat),
        (resetSeries room now).series.currentRound = 1 ∧
        (resetSeries room now).currentTurn = .X ∧
        roundStartingTurn 1 = .X) := by
  refine ⟨?_, fun room now => ⟨rfl, rfl⟩, fun room now => ⟨rfl, rfl, rfl⟩⟩
  unfold roundStartingTurn
  split
  · simp_all
  · simp_all

/-- Witness for C4 at round 3. -/
theorem C4_round_start_parity_witness :
    (1 ≤ 3 ∧ 3 ≤ 5) ∧ (roundStartingTurn 3 = .X ↔ 3 % 2 = 1) :=
  ⟨⟨by decide, by decide⟩, (C4_round_start_parity 3 (by decide) (by decide)).1⟩

/-- C7: a successful external inference result is validated as numeric
and clamped into [0, 1] with no series-pressure amplification (the
success value is independent of the series state); a non-numeric or
missing intensity field produces exactly the failure result; on
failure the value is the recomputed heuristic with the amplification
factor applied to that heuristic-sourced value only,
min(1, heuristic * (1 + pressure)), so the call always resolves with a
value and has no error outcome in its result type. -/
theorem C7_inference_validation_and_fallback :
    (∀ (json : GeminiJson) (raw : Rat) (b : Board) (t : Mark) (s : SeriesState)
        (l : Option RoundWinner), json.intensity = some raw →
        (getIntensity (some json) b t s l).value = max 0 (min 1 raw) ∧
        (getIntensity (some json) b t s l).source = .gemini) ∧
    (∀ (json : GeminiJson) (raw : Rat) (b : Board) (t : Mark) (s s2 : SeriesState)
        (l : Option RoundWinner), json.intensity = some raw →
        (getIntensity (some json) b t s l).value = (getIntensity (some json) b t s2 l).value) ∧
    (∀ (json : GeminiJson) (b : Board) (t : Mark) (s : SeriesState)
        (l : Option RoundWinner), json.intensity = none →
        getIntensity (some json) b t s l = getIntensity none b t s l) ∧
    (∀ (b : Board) (t : Mark) (s : SeriesState) (l : Option RoundWinner),
        (getIntensity none b t s l).value =
          min 1 (analyzeIntensity b t * (1 + computeSeriesPressure s)) ∧
        (getIntensity none b t s l).source = .heuristic) := by
  refine ⟨?_, ?_, ?_, fun b t s l => ⟨rfl, rfl⟩⟩
  · intro json raw b t s l hj
    simp [getIntensity, hj]
  · intro json raw b t s s2 l hj
    simp only [getIntensity, hj]
  · intro json b t s l hj
    simp only [getIntensity, hj]

/-- Witness for C7: an out-of-range successful value 1.7 is clamped. -/
theorem C7_inference_validation_and_fallback_witness :
    (({ intensity := some 1.7, morale_X := none, morale_O := none } : GeminiJson).intensity
        = some 1.7) ∧
    (getIntensity (some { intensity := some 1.7, morale_X := none, morale_O := none })
        createEmptyBoard .X createInitialSeries none).value = max 0 (min 1 1.7) :=
  ⟨rfl,
   (C7_inference_validation_and_fallback.1
      { intensity := some 1.7, morale_X := none, morale_O := none }
      1.7 createEmptyBoard .X createInitialSeries none rfl).1⟩

/-- C9: the synchronous heuristic score is total and always in [0, 1]
for every board; combined morale is always in [-1, 1] per mark; every
path of the scoring pipeline (clamped external result, amplified
heuristic fallback, morale from either source) stays in range; and the
room mutations that write these fields keep them in range (creation,
round advance and series reset write zeros, an accepted move writes
the heuristic score). -/
theorem C9_signals_bounded :
    (∀ (b : Board) (t : Mark), 0 ≤ analyzeIntensity b t ∧ analyzeIntensity b t ≤ 1) ∧
    (∀ (b : Board) (t : Mark) (s : SeriesState) (l : Option RoundWinner),
        -1 ≤ (computeMorale b t s l).X ∧ (computeMorale b t s l).X ≤ 1 ∧
        -1 ≤ (computeMorale b t s l).O ∧ (computeMorale b t s l).O ≤ 1) ∧
    (∀ (o : Option GeminiJson) (b : Board) (t : Mark) (s : SeriesState)
        (l : Option RoundWinner), s.maxRounds = 5 →
        (0 ≤ (getIntensity o b t s l).value ∧ (getIntensity o b t s l).value ≤ 1) ∧
        (-1 ≤ (getIntensity o b t s l).morale.X ∧ (getIntensity o b t s l).morale.X ≤ 1) ∧
        (-1 ≤ (getIntensity o b t s l).morale.O ∧ (getIntensity o b t s l).morale.O ≤ 1)) ∧
    (∀ (st : ServerState) (rid tok sid : String) (now : Nat),
        (createRoom st rid tok sid now).2.intensity = 0 ∧
        (createRoom st rid tok sid now).2.morale = ⟨0, 0⟩) ∧
    (∀ (room : GameRoom) (now : Nat),
        (advanceRound room now).intensity = 0 ∧ (advanceRound room now).morale = ⟨0, 0⟩) ∧
    (∀ (room : GameRoom) (now : Nat),
        (resetSeries room now).intensity = 0 ∧ (resetSeries room now).morale = ⟨0, 0⟩) ∧
    (∀ (room : GameRoom) (tok : String) (cell : Int) (now : Nat) (out : MoveOutcome),
        makeMove room tok cell now = .ok out →
        0 ≤ out.room.intensity ∧ out.room.intensity ≤ 1 ∧ out.room.morale = room.morale) := by
  refine ⟨fun b t => ⟨analyzeIntensity_nonneg b t, analyzeIntensity_le_one b t⟩,
          fun b t s l => computeMorale_bounds b t s l,
          ?_,
          fun st rid tok sid now => ⟨rfl, rfl⟩,
          fun room now => ⟨rfl, rfl⟩,
          fun room now => ⟨rfl, rfl⟩,
          ?_⟩
  · intro o b t s l hmax
    obtain ⟨hm1, hm2, hm3, hm4⟩ := getIntensity_morale_bounds o b t s l
    exact ⟨getIntensity_value_bounds o b t s l hmax, ⟨hm1, hm2⟩, ⟨hm3, hm4⟩⟩
  · intro room tok cell now out h
    obtain ⟨_, _, hi, hm⟩ := makeMove_ok_shape room tok cell now out h
    rw [hi]
    exact ⟨analyzeIntensity_nonneg _ _, analyzeIntensity_le_one _ _, hm⟩

/-- Witness for C9 at the empty board and initial series. -/
theorem C9_signals_bounded_witness :
    createInitialSeries.maxRounds = 5 ∧
    0 ≤ (getIntensity none createEmptyBoard .X createInitialSeries none).value :=
  ⟨by decide,
   ((C9_signals_bounded.2.2.1 none createEmptyBoard .X createInitialSeries none rfl).1).1⟩

theorem isCellEmpty_iff (b : Board) (cell : Int) :
    isCellEmpty b cell = true ↔
      (0 ≤ cell ∧ cell.toNat < b.length ∧ cellAt b cell.toNat = none) := by
  unfold isCellEmpty jsCellAt
  split
  next hc =>
    simp only [Bool.and_eq_true, decide_eq_true_eq] at hc
    simp only [beq_iff_eq, Option.some.injEq]
    constructor
    · intro h
      exact ⟨hc.1, hc.2, h⟩
    · intro h
      exact h.2.2
  next hc =>
    simp only [Bool.and_eq_true, decide_eq_true_eq, not_and] at hc
    constructor
    · intro h
      exact absurd h (by decide)
    · intro h
      exact absurd h.2.1 (hc h.1)

theorem jsCellAt_placeMarker (b : Board) (cell : Int) (m : Mark)
    (he : isCellEmpty b cell = true) :
    jsCellAt (placeMarker b cell.toNat m) cell = some (some m) ∧
    placeMarker b cell.toNat m ≠ b := by
  obtain ⟨h0, hlt, hold⟩ := (isCellEmpty_iff b cell).mp he
  have hset : cellAt (placeMarker b cell.toNat m) cell.toNat = some m := by
    unfold cellAt placeMarker
    rw [List.getD]
    rw [List.get?_set_eq_of_lt _ hlt]
    rfl
  have hlen : (placeMarker b cell.toNat m).length = b.length := by
    unfold placeMarker
    exact List.length_set b cell.toNat (some m)
  constructor
  · unfold jsCellAt
    rw [hlen]
    rw [if_pos (by simp [h0, hlt])]
    rw [hset]
  · intro hcontra
    rw [hcontra] at hset
    rw [hold] at hset
    exact Option.noConfusion hset

theorem makeMove_ok_preconds (room : GameRoom) (tok : String) (cell : Int) (now : Nat)
    (out : MoveOutcome) (h : makeMove room tok cell now = .ok out) :
    room.status = .active ∧ getPlayerMark room tok = some room.currentTurn ∧
    isValidCell cell = true ∧ isCellEmpty room.board cell = true := by
  unfold makeMove at h
  split at h
  · simp at h
  · next hst =>
    split at h
    next => simp at h
    next mark hmk =>
      split at h
      next => simp at h
      next hmt =>
        split at h
        next => simp at h
        next hv =>
          split at h
          next => simp at h
          next he =>
            have hmark : mark = room.currentTurn := not_not.mp hmt
            subst hmark
            refine ⟨not_not.mp hst, hmk, ?_, ?_⟩
            · simpa using hv
            · simpa using he

/-- C5: after a recorded round, checkSeriesOver decides the series
exactly when one mark reaches the clinch threshold ceil(maxRounds/2)
or the series has been fully played; the clinching mark (or the leader
after the final round) becomes seriesWinner, and seriesWinner is null
only for a tied, fully-played series. -/
theorem C5_series_decision (room : GameRoom)
    (hmax : room.series.maxRounds = 5)
    (hover : room.series.seriesOver = false) :
    ((checkSeriesOver room).2 = true ↔
        (room.series.winsX ≥ (room.series.maxRounds + 1) / 2 ∨
         room.series.winsO ≥ (room.series.maxRounds + 1) / 2 ∨
         room.series.currentRound ≥ room.series.maxRounds)) ∧
    ((checkSeriesOver room).1.series.seriesOver = (checkSeriesOver room).2) ∧
    (room.series.winsX ≥ 3 → (checkSeriesOver room).1.series.seriesWinner = some .X) ∧
    (room.series.winsX < 3 → room.series.winsO ≥ 3 →
        (checkSeriesOver room).1.series.seriesWinner = some .O) ∧
    (room.series.winsX < 3 → room.series.winsO < 3 →
        room.series.currentRound ≥ room.series.maxRounds →
        (checkSeriesOver room).1.series.seriesWinner =
          (if room.series.winsX > room.series.winsO then some Mark.X
           else if room.series.winsO > room.series.winsX then some Mark.O
           else none)) ∧
    ((checkSeriesOver room).2 = true →
        (checkSeriesOver room).1.series.seriesWinner = none →
        room.series.winsX = room.series.winsO ∧
        room.series.currentRound ≥ room.series.maxRounds) := by
  unfold checkSeriesOver
  dsimp only
  split_ifs with h1 h2 h3 <;>
    refine ⟨?_, ?_, ?_, ?_, ?_, ?_⟩ <;>
    simp_all <;>
    omega

/-- Witness for C5: wins X 3, O 0 after round 3 of a best of five
decide the series for X. -/
theorem C5_series_decision_witness :
    ({ sampleRoom with series := { createInitialSeries with currentRound := 3, winsX := 3 } }
        : GameRoom).series.maxRounds = 5 ∧
    (checkSeriesOver
        { sampleRoom with series := { createInitialSeries with currentRound := 3, winsX := 3 } }).2
      = true ∧
    (checkSeriesOver
        { sampleRoom with series := { createInitialSeries with currentRound := 3, winsX := 3 } }).1.series.seriesWinner
      = some .X :=
  ⟨by decide,
   (C5_series_decision
      { sampleRoom with series := { createInitialSeries with currentRound := 3, winsX := 3 } }
      rfl rfl).1.mpr (Or.inl (by decide)),
   (C5_series_decision
      { sampleRoom with series := { createInitialSeries with currentRound := 3, winsX := 3 } }
      rfl rfl).2.2.1 (by decide)⟩

theorem makeMove_error_cases (room : GameRoom) (tok : String) (cell : Int) (now : Nat)
    (e : ErrCode) (h : makeMove room tok cell now = .error e) :
    (room.status ≠ .active ∧
       e = (if room.status = .roundOver then .ROUND_TRANSITION else .GAME_NOT_ACTIVE)) ∨
    (room.status = .active ∧ getPlayerMark room tok ≠ some room.currentTurn ∧
       e = .NOT_YOUR_TURN) ∨
    (room.status = .active ∧ getPlayerMark room tok = some room.currentTurn ∧
       isValidCell cell = false ∧ e = .INVALID_CELL) ∨
    (room.status = .active ∧ getPlayerMark room tok = some room.currentTurn ∧
       isValidCell cell = true ∧ isCellEmpty room.board cell = false ∧
       e = .CELL_OCCUPIED) := by
  unfold makeMove at h
  split at h
  next hs =>
    injection h with h2
    exact Or.inl ⟨hs, h2.symm⟩
  next hs =>
    split at h
    next hmk0 =>
      injection h with h2
      refine Or.inr (Or.inl ⟨not_not.mp hs, ?_, h2.symm⟩)
      rw [hmk0]
      exact fun hcon => Option.noConfusion hcon
    next mark hmk0 =>
      split at h
      next hmt0 =>
        injection h with h2
        refine Or.inr (Or.inl ⟨not_not.mp hs, ?_, h2.symm⟩)
        rw [hmk0]
        intro hcon
        injection hcon with hcon2
        exact hmt0 hcon2
      next hmt0 =>
        have hmark : mark = room.currentTurn := not_not.mp hmt0
        subst hmark
        split at h
        next hv0 =>
          injection h with h2
          exact Or.inr (Or.inr (Or.inl ⟨not_not.mp hs, hmk0,
            by simpa using hv0, h2.symm⟩))
        next hv0 =>
          split at h
          next he0 =>
            injection h with h2
            refine Or.inr (Or.inr (Or.inr ⟨not_not.mp hs, hmk0,
              by simpa using hv0, by simpa using he0, h2.symm⟩))
          next he0 =>
            exfalso
            dsimp only at h
            split at h
            next result heq =>
              split at h
              · simp at h
              · simp at h
            next heq => simp at h

/-- C6: the move pipeline accepts a move (and then mutates the board)
exactly when all preconditions hold, rejects with NOT_YOUR_TURN,
INVALID_CELL or CELL_OCCUPIED when the corresponding precondition is
the first to fail, never both rejects and mutates (an error result
carries no state change by construction), and a move during
round-over gets the distinct ROUND_TRANSITION code while waiting and
finished get GAME_NOT_ACTIVE. -/
theorem C6_move_validation (room : GameRoom) (tok : String) (cell : Int) (now : Nat) :
    ((∃ out, makeMove room tok cell now = .ok out) ↔
        (room.status = .active ∧ getPlayerMark room tok = some room.currentTurn ∧
         isValidCell cell = true ∧ isCellEmpty room.board cell = true)) ∧
    (makeMove room tok cell now = .error .NOT_YOUR_TURN ↔
        (room.status = .active ∧ getPlayerMark room tok ≠ some room.currentTurn)) ∧
    (makeMove room tok cell now = .error .INVALID_CELL ↔
        (room.status = .active ∧ getPlayerMark room tok = some room.currentTurn ∧
         isValidCell cell = false)) ∧
    (makeMove room tok cell now = .error .CELL_OCCUPIED ↔
        (room.status = .active ∧ getPlayerMark room tok = some room.currentTurn ∧
         isValidCell cell = true ∧ isCellEmpty room.board cell = false)) ∧
    (makeMove room tok cell now = .error .ROUND_TRANSITION ↔
        room.status = .roundOver) ∧
    ((room.status = .waiting ∨ room.status = .finished) ↔
        makeMove room tok cell now = .error .GAME_NOT_ACTIVE) ∧
    (ErrCode.ROUND_TRANSITION ≠ ErrCode.GAME_NOT_ACTIVE) ∧
    (∀ out, makeMove room tok cell now = .ok out →
        out.room.board = placeMarker room.board cell.toNat room.currentTurn ∧
        jsCellAt out.room.board cell = some (some room.currentTurn) ∧
        out.room.board ≠ room.board) := by
  have hmut : ∀ out, makeMove room tok cell now = .ok out →
      out.room.board = placeMarker room.board cell.toNat room.currentTurn ∧
      jsCellAt out.room.board cell = some (some room.currentTurn) ∧
      out.room.board ≠ room.board := by
    intro out hok
    obtain ⟨_, _, _, he⟩ := makeMove_ok_preconds room tok cell now out hok
    obtain ⟨_, hb, _, _⟩ := makeMove_ok_shape room tok cell now out hok
    obtain ⟨hat, hne⟩ := jsCellAt_placeMarker room.board cell room.currentTurn he
    exact ⟨hb, hb ▸ hat, hb ▸ hne⟩
  cases hst : room.status with
  | waiting =>
    have hres : makeMove room tok cell now = .error .GAME_NOT_ACTIVE := by
      unfold makeMove
      rw [hst]
      rfl
    refine ⟨?_, ?_, ?_, ?_, ?_, ?_, by decide, hmut⟩ <;> simp [hres, hst]
  | roundOver =>
    have hres : makeMove room tok cell now = .error .ROUND_TRANSITION := by
      unfold makeMove
      rw [hst]
      rfl
    refine ⟨?_, ?_, ?_, ?_, ?_, ?_, by decide, hmut⟩ <;> simp [hres, hst]
  | finished =>
    have hres : makeMove room tok cell now = .error .GAME_NOT_ACTIVE := by
      unfold makeMove
      rw [hst]
      rfl
    refine ⟨?_, ?_, ?_, ?_, ?_, ?_, by decide, hmut⟩ <;> simp [hres, hst]
  | active =>
    cases hmk : getPlayerMark room tok with
    | none =>
      have hres : makeMove room tok cell now = .error .NOT_YOUR_TURN := by
        unfold makeMove
        rw [hst, hmk]
        rfl
      refine ⟨?_, ?_, ?_, ?_, ?_, ?_, by decide, hmut⟩ <;> simp [hres, hst, hmk]
    | some mark =>
      by_cases hmt : mark = room.currentTurn
      · subst hmt
        by_cases hv : isValidCell cell = true
        · by_cases he : isCellEmpty room.board cell = true
          · have hex : ∃ out, makeMove room tok cell now = .ok out := by
              cases hres : makeMove room tok cell now with
              | ok out => exact ⟨out, rfl⟩
              | error e =>
                rcases makeMove_error_cases room tok cell now e hres with
                  hc | hc | hc | hc
                · exact absurd hst hc.1
                · exact absurd hmk hc.2.1
                · rw [hv] at hc
                  exact absurd hc.2.2.1 (by simp)
                · rw [he] at hc
                  exact absurd hc.2.2.2.1 (by simp)
            obtain ⟨out0, hres⟩ := hex
            refine ⟨?_, ?_, ?_, ?_, ?_, ?_, by decide, hmut⟩ <;>
              simp [hres, hst, hmk, hv, he]
          · have hres : makeMove room tok cell now = .error .CELL_OCCUPIED := by
              unfold makeMove
              rw [hst, hmk]
              simp [hv, Bool.eq_false_iff.mpr he]
            have he' : isCellEmpty room.board cell = false := Bool.eq_false_iff.mpr he
            refine ⟨?_, ?_, ?_, ?_, ?_, ?_, by decide, hmut⟩ <;>
              simp [hres, hst, hmk, hv, he']
        · have hres : makeMove room tok cell now = .error .INVALID_CELL := by
            unfold makeMove
            rw [hst, hmk]
            simp [Bool.eq_false_iff.mpr hv]
          have hv' : isValidCell cell = false := Bool.eq_false_iff.mpr hv
          refine ⟨?_, ?_, ?_, ?_, ?_, ?_, by decide, hmut⟩ <;>
            simp [hres, hst, hmk, hv']
      · have hres : makeMove room tok cell now = .error .NOT_YOUR_TURN := by
          unfold makeMove
          rw [hst, hmk]
          simp [hmt]
        refine ⟨?_, ?_, ?_, ?_, ?_, ?_, by decide, hmut⟩ <;>
          simp [hres, hst, hmk, hmt]

/-- Witness for C6: placing X at the center of the fresh active room
is accepted. -/
theorem C6_move_validation_witness :
    (∃ out, makeMove activeRoom tokA 4 0 = .ok out) :=
  (C6_move_validation activeRoom tokA 4 0).1.mpr (by decide)

/-- C10: reconnection never fails for being late. For every room that
still exists and every token owning one of its seats, reconnectPlayer
succeeds and restores the seat whatever the elapsed time and whatever
the room status (the hypotheses mention neither), and the
RECONNECT_EXPIRED code is never returned by reconnectPlayer, joinRoom
or makeMove. -/
theorem C10_reconnect_never_expires (st : ServerState) (roomId token sid : String)
    (room : GameRoom) (pl : PlayerIdentity)
    (hroom : alistLookup st.rooms roomId = some room)
    (hpl : alistLookup room.players token = some pl) :
    (∃ st', reconnectPlayer st roomId token sid = .ok (st', pl.mark) ∧
       (∃ room', alistLookup st'.rooms roomId = some room' ∧
          alistLookup room'.players token =
            some { pl with socketId := some sid, connected := true } ∧
          token ∉ st'.disconnectTimers)) ∧
    (∀ (st2 : ServerState) (r2 t2 s2 : String) (e : ErrCode),
        reconnectPlayer st2 r2 t2 s2 = .error e →
        e = .ROOM_NOT_FOUND ∨ e = .INVALID_TOKEN) ∧
    (∀ (st2 : ServerState) (r2 s2 t2 : String) (e : ErrCode),
        joinRoom st2 r2 s2 t2 = .error e → e = .ROOM_NOT_FOUND ∨ e = .ROOM_FULL) ∧
    (∀ (room2 : GameRoom) (t2 : String) (c2 : Int) (n2 : Nat) (e : ErrCode),
        makeMove room2 t2 c2 n2 = .error e → e ≠ .RECONNECT_EXPIRED) := by
  refine ⟨?_, ?_, ?_, ?_⟩
  · unfold reconnectPlayer
    rw [hroom]
    dsimp only
    rw [hpl]
    dsimp only
    refine ⟨_, rfl, _, alistLookup_insert _ _ _, alistLookup_insert _ _ _, ?_⟩
    intro hmem
    rcases List.mem_filter.mp hmem with ⟨-, hcond⟩
    simp at hcond
  · intro st2 r2 t2 s2 e h
    unfold reconnectPlayer at h
    split at h
    · injection h with h2
      exact Or.inl h2.symm
    · split at h
      · injection h with h2
        exact Or.inr h2.symm
      · simp at h
  · intro st2 r2 s2 t2 e h
    unfold joinRoom at h
    split at h
    · injection h with h2
      exact Or.inl h2.symm
    · split at h
      · injection h with h2
        exact Or.inr h2.symm
      · split at h
        · injection h with h2
          exact Or.inr h2.symm
        · simp at h
  · intro room2 t2 c2 n2 e h hne
    subst hne
    rcases makeMove_error_cases room2 t2 c2 n2 _ h with hc | hc | hc | hc
    · obtain ⟨-, h2⟩ := hc
      by_cases hq : room2.status = .roundOver
      · rw [if_pos hq] at h2
        exact absurd h2 (by decide)
      · rw [if_neg hq] at h2
        exact absurd h2 (by decide)
    · exact absurd hc.2.2 (by decide)
    · exact absurd hc.2.2.2 (by decide)
    · exact absurd hc.2.2.2.2 (by decide)

/-- Witness for C10: the X seat of a room left finished by a forfeit
reconnects successfully with a fresh socket. -/
theorem C10_reconnect_never_expires_witness :
    stFinished.rooms = [(ridA, finishedRoom)] ∧
    finishedRoom.status = .finished ∧
    ∃ st', reconnectPlayer stFinished ridA tokA sidA = .ok (st', Mark.X) := by
  refine ⟨rfl, rfl, ?_⟩
  obtain ⟨st', hok, -⟩ :=
    (C10_reconnect_never_expires stFinished ridA tokA sidA finishedRoom
      { mark := .X, socketId := none, connected := false } (by decide) (by decide)).1
  exact ⟨st', hok⟩

/-- C2: when the disconnect timer of a seat in an active room expires
(with the opponent socket captured at disconnect time present), the
opponent of the disconnected mark wins the current round and the
whole series regardless of the prior score: the round is recorded for
the opponent, seriesOver is forced true and seriesWinner is the
opponent mark. -/
theorem C2_forfeit_decides_series (st : ServerState) (roomId token oppSid : String)
    (dm : Mark) (now : Nat) (room : GameRoom) (pl : PlayerIdentity)
    (hroom : alistLookup st.rooms roomId = some room)
    (hpl : alistLookup room.players token = some pl)
    (hmark : pl.mark = dm)
    (_hactive : room.status = .active) :
    ∃ room',
      alistLookup (forfeitTimerCallback roomId token dm (some oppSid) now st).1.rooms roomId
        = some room' ∧
      room'.series.seriesOver = true ∧
      room'.series.seriesWinner = some (toggleTurn dm) ∧
      room'.winner = some (.markWin (toggleTurn dm)) ∧
      room'.series.roundResults.map (·.winner) =
        room.series.roundResults.map (·.winner) ++ [.markWin (toggleTurn dm)] ∧
      room'.series.winsOf (toggleTurn dm) = room.series.winsOf (toggleTurn dm) + 1 ∧
      room'.series.winsOf dm = room.series.winsOf dm := by
  unfold forfeitTimerCallback forfeitRoom
  rw [hroom]
  dsimp only
  rw [hpl]
  dsimp only
  rw [hmark]
  cases dm with
  | X =>
    refine ⟨_, alistLookup_insert _ _ _, ?_⟩
    unfold recordRoundResult
    simp [toggleTurn, SeriesState.winsOf]
  | O =>
    refine ⟨_, alistLookup_insert _ _ _, ?_⟩
    unfold recordRoundResult
    simp [toggleTurn, SeriesState.winsOf]

/-- Witness for C2: the X seat of the fresh active room (score 0-0)
forfeits; O wins the round and the whole series. -/
theorem C2_forfeit_decides_series_witness :
    activeRoom.status = .active ∧
    activeRoom.series.winsO = 0 ∧
    ∃ room',
      alistLookup (forfeitTimerCallback ridA tokA .X (some sidB) 50 stActive).1.rooms ridA
        = some room' ∧
      room'.series.seriesOver = true ∧
      room'.series.seriesWinner = some (toggleTurn .X) := by
  refine ⟨rfl, rfl, ?_⟩
  obtain ⟨room', h1, h2, h3, -⟩ :=
    C2_forfeit_decides_series stActive ridA tokA sidB .X 50 activeRoom
      { mark := .X, socketId := some sidA, connected := true }
      (by decide) (by decide) rfl rfl
  exact ⟨room', h1, h2, h3⟩

/-- C1 counterexample: the claim says a stale resolution leaves the
live tension unchanged and broadcasts only when applied. In staleRoom
the log holds six moves, so a resolution for superseded move 4 passes
the guard (length 6 is at least 4) and overwrites the live tension;
and on the genuinely discarded path (log shorter than the move
number) the broadcast is still published. -/
theorem C1_counterexample :
    staleRoom.moveHistory.length = 6 ∧
    (applyIntensityResolution staleRoom staleResult 4 3).1.intensity ≠ staleRoom.intensity ∧
    (applyIntensityResolution sampleRoom staleResult 4 3).1 = sampleRoom ∧
    (applyIntensityResolution sampleRoom staleResult 4 3).2 ≠ [] := by
  refine ⟨rfl, ?_, rfl, ?_⟩
  · have h1 : (applyIntensityResolution staleRoom staleResult 4 3).1.intensity = 0.9 := rfl
    have h2 : staleRoom.intensity = 0.2 := rfl
    rw [h1, h2]
    norm_num
  · have h3 : (applyIntensityResolution sampleRoom staleResult 4 3).2 =
        [Event.intensityUpdate staleResult.value staleResult.source 4] := rfl
    rw [h3]
    exact fun hcon => List.noConfusion hcon

/-- C1 (amended): the resolution for move N is applied whenever the
move log still holds at least N entries, even when later moves have
superseded move N: the resolved value overwrites the live room
intensity and the record of move N, while the records of all other
moves (in particular every later move) are untouched. The update is
discarded (room unchanged) only when the log has fewer than N entries,
that is, after a series reset emptied it. The intensity-update
broadcast is published on both paths. -/
theorem C1_resolution_guard (room : GameRoom) (res : IntensityResult) (n : Nat)
    (hn : 1 ≤ n) :
    (room.moveHistory.length ≥ n →
        (applyIntensityResolution room res n (n - 1)).1.intensity = res.value ∧
        ((applyIntensityResolution room res n (n - 1)).1.moveHistory.get? (n - 1)).map
            (·.intensity) = some res.value ∧
        (∀ i, i ≠ n - 1 →
            (applyIntensityResolution room res n (n - 1)).1.moveHistory.get? i =
              room.moveHistory.get? i)) ∧
    (room.moveHistory.length < n →
        (applyIntensityResolution room res n (n - 1)).1 = room) ∧
    (applyIntensityResolution room res n (n - 1)).2 =
      [Event.intensityUpdate res.value res.source n] := by
  refine ⟨?_, ?_, rfl⟩
  · intro hlen
    have hlt : n - 1 < room.moveHistory.length := by omega
    obtain ⟨mv, hmv⟩ : ∃ mv, room.moveHistory.get? (n - 1) = some mv := by
      cases hq : room.moveHistory.get? (n - 1) with
      | none =>
        rw [List.get?_eq_none] at hq
        omega
      | some mv => exact ⟨mv, rfl⟩
    have hset : setMoveIntensity room.moveHistory (n - 1) res.value =
        room.moveHistory.set (n - 1) { mv with intensity := res.value } := by
      unfold setMoveIntensity
      rw [hmv]
    unfold applyIntensityResolution
    rw [if_pos hlen]
    refine ⟨rfl, ?_, ?_⟩
    · dsimp only
      rw [hset, List.get?_set_eq_of_lt _ hlt]
      rfl
    · intro i hi
      dsimp only
      rw [hset, List.get?_set_ne _ _ (fun hc => hi hc.symm)]
  · intro hlen
    unfold applyIntensityResolution
    rw [if_neg (by omega)]

/-- Witness for C1 (amended) at the six-move room and move 4. -/
theorem C1_resolution_guard_witness :
    (1 ≤ 4 ∧ staleRoom.moveHistory.length ≥ 4) ∧
    (applyIntensityResolution staleRoom staleResult 4 3).1.intensity = staleResult.value :=
  ⟨⟨by decide, by decide⟩,
   ((C1_resolution_guard staleRoom staleResult 4 (by decide)).1 (by decide)).1⟩

/-- C3 counterexample: the claim says the expiry callback is a no-op
whenever the room status is no longer active. Here the room is in
round-over (its round was already decided for O) when the X timer
fires, yet the callback mutates it: seriesOver is forced to true, the
series is awarded to O and another round win is credited. -/
theorem C3_counterexample :
    roundOverRoom.status = .roundOver ∧
    roundOverRoom.series.seriesOver = false ∧
    roundOverRoom.series.winsO = 1 ∧
    ((alistLookup (expireDisconnectTimer tokA
        (forfeitTimerCallback ridA tokA .X (some sidB) 100) stRoundOver).1.rooms ridA).map
      (fun r => r.series.seriesOver)) = some true ∧
    ((alistLookup (expireDisconnectTimer tokA
        (forfeitTimerCallback ridA tokA .X (some sidB) 100) stRoundOver).1.rooms ridA).map
      (fun r => r.series.seriesWinner)) = some (some .O) ∧
    ((alistLookup (expireDisconnectTimer tokA
        (forfeitTimerCallback ridA tokA .X (some sidB) 100) stRoundOver).1.rooms ridA).map
      (fun r => r.series.winsO)) = some 2 := by
  decide

/-- C3 (amended): on expiry the timer entry is removed before the
registered callback runs (the callback observes a timer map without
the token), a disarmed or already-fired timer does not fire again, and
the forfeiture callback is a no-op when the room has been deleted or
the token matches no seat; but when the room still exists the callback
forfeits it regardless of status, so a round-over or finished room is
still mutated by a late expiry. -/
theorem C3_timer_expiry (st : ServerState) (token : String)
    (cb : ServerState → ServerState × List Event) :
    (token ∈ st.disconnectTimers →
        expireDisconnectTimer token cb st =
          cb { st with disconnectTimers :=
                st.disconnectTimers.filter fun t => !(t == token) } ∧
        token ∉ st.disconnectTimers.filter fun t => !(t == token)) ∧
    (token ∉ st.disconnectTimers → expireDisconnectTimer token cb st = (st, [])) ∧
    (∀ (roomId tok : String) (dm : Mark) (opp : Option String) (now : Nat)
        (st2 : ServerState), alistLookup st2.rooms roomId = none →
        forfeitTimerCallback roomId tok dm opp now st2 = (st2, [])) ∧
    (∀ (roomId tok : String) (dm : Mark) (opp : Option String) (now : Nat)
        (st2 : ServerState) (room : GameRoom),
        alistLookup st2.rooms roomId = some room →
        alistLookup room.players tok = none →
        forfeitTimerCallback roomId tok dm opp now st2 = (st2, [])) := by
  refine ⟨?_, ?_, ?_, ?_⟩
  · intro hmem
    constructor
    · unfold expireDisconnectTimer
      rw [if_pos hmem]
    · intro hcon
      rcases List.mem_filter.mp hcon with ⟨-, hcond⟩
      simp at hcond
  · intro hmem
    unfold expireDisconnectTimer
    rw [if_neg hmem]
  · intro roomId tok dm opp now st2 hnone
    unfold forfeitTimerCallback forfeitRoom
    rw [hnone]
  · intro roomId tok dm opp now st2 room hsome hnopl
    unfold forfeitTimerCallback forfeitRoom
    rw [hsome]
    dsimp only
    rw [hnopl]

/-- Witness for C3 (amended): the armed timer of the X seat fires and
its entry is gone in the state the callback sees. -/
theorem C3_timer_expiry_witness :
    tokA ∈ stRoundOver.disconnectTimers ∧
    tokA ∉ stRoundOver.disconnectTimers.filter fun t => !(t == tokA) :=
  ⟨by decide,
   ((C3_timer_expiry stRoundOver tokA
      (forfeitTimerCallback ridA tokA .X (some sidB) 100)).1 (by decide)).2⟩

/-- C8 counterexample: the claim says a room whose seats disconnected
within the grace window is not yet deleted and a room with a connected
seat is never swept. Room R1 was created at the very instant of the
sweep, so its seats have been disconnected for 0 ms (far inside the
30000 ms grace window), yet the sweep deletes it; room R2 is finished
with a connected seat, yet the sweep deletes it because more than ten
minutes passed since creation. -/
theorem C8_counterexample :
    (∀ q ∈ bothDiscRoom.players, q.2.connected = false) ∧
    bothDiscRoom.createdAt = 660001 ∧
    alistLookup (runCleanupSweep stSweep 660001).rooms ridA = none ∧
    (finishedConnRoom.players.any fun q => q.2.connected) = true ∧
    finishedConnRoom.status = .finished ∧
    alistLookup (runCleanupSweep stSweep 660001).rooms ridB = none := by
  decide

/-- C8 (amended): the sweep deletes a room exactly when every seat is
disconnected (with no regard to how recently the disconnects happened)
or the room is finished and more than ten minutes old counted from its
creation time (not from when it finished); in particular a finished
room with a connected seat is swept once ten minutes from creation
have passed. -/
theorem C8_sweep_characterization (st : ServerState) (now : Nat)
    (p : String × GameRoom) :
    (p ∈ (runCleanupSweep st now).rooms ↔
        p ∈ st.rooms ∧ sweepCondition now p.2 = false) ∧
    (sweepCondition now p.2 = true ↔
        ((∀ q ∈ p.2.players, q.2.connected = false) ∨
         (p.2.status = .finished ∧ now - p.2.createdAt > 600000))) := by
  constructor
  · unfold runCleanupSweep
    dsimp only
    rw [List.mem_filter]
    simp [Bool.not_eq_true']
  · unfold sweepCondition
    simp [List.all_eq_true, Bool.not_eq_true']

end Score
